import Mathlib

/-!
Shallow embedding of the category-game server (room/phase state machine,
timer engine, scoring, category selection) and proofs of the specification
claims about it. Definitions mirror the JavaScript source: JS `Map`s become
insertion-ordered association lists, wall-clock times are integer
milliseconds, and randomness is an oracle index supplied as an argument.
-/

namespace CategoryGame

/-- Insertion-ordered association list lookup, mirroring JS `Map.get`. -/
def mapGet [BEq κ] (m : List (κ × α)) (k : κ) : Option α :=
  (m.find? (fun e => e.1 == k)).map (·.2)

/-- Insertion-ordered association list update, mirroring JS `Map.set`:
replaces in place when the key exists, appends otherwise. -/
def mapSet [BEq κ] (m : List (κ × α)) (k : κ) (v : α) : List (κ × α) :=
  match m with
  | [] => [(k, v)]
  | (k', v') :: rest => if k' == k then (k, v) :: rest else (k', v') :: mapSet rest k v

/-- Association list deletion, mirroring JS `Map.delete`. -/
def mapDelete [BEq κ] (m : List (κ × α)) (k : κ) : List (κ × α) :=
  m.filter (fun e => !(e.1 == k))

/-- The keys of the map are pairwise distinct. -/
def keysUnique [BEq κ] (m : List (κ × α)) : Prop :=
  (m.map (·.1)).Pairwise (fun a b => (a == b) = false)

/-- The `GameTimer` class: a per-second countdown with completion and tick
callbacks. Callback invocation is modelled by the Bool components returned
by the operations (`true` = the corresponding callback fired). -/
structure GameTimer where
  duration : Int
  remaining : Int
  phase : String
  isActive : Bool
  startTime : Option Int
deriving DecidableEq, Repr

/-- GameTimer constructor: `new GameTimer(duration, onComplete, onTick, phase)`. -/
def newTimer (duration : Int) (phase : String) : GameTimer :=
  { duration := duration, remaining := duration, phase := phase,
    isActive := false, startTime := none }

/-- `GameTimer.start()`: no-op while already active, otherwise activates and
records the wall-clock start time. -/
def startT (t : GameTimer) (now : Int) : GameTimer :=
  if t.isActive then t
  else { t with isActive := true, startTime := some now }

/-- `GameTimer.cancel()`: deactivates and clears the interval without firing
the completion callback. -/
def cancelT (t : GameTimer) : GameTimer :=
  { t with isActive := false }

/-- `GameTimer.complete()`: fires the completion callback once, only when the
timer is still active. The Bool reports whether `onComplete` fired. -/
def completeT (t : GameTimer) : GameTimer × Bool :=
  if t.isActive then ({ t with isActive := false }, true)
  else (t, false)

/-- One interval firing: decrements `remaining`, fires the tick callback, and
completes when `remaining` reaches zero. The interval exists only while the
timer is active (start sets it, cancel/complete clear it), so an inactive
timer never ticks. The Bools report (tick fired, completion fired). -/
def tickT (t : GameTimer) : GameTimer × Bool × Bool :=
  if t.isActive then
    let t1 := { t with remaining := t.remaining - 1 }
    if t1.remaining ≤ 0 then ((completeT t1).1, true, (completeT t1).2)
    else (t1, true, false)
  else (t, false, false)

/-- `GameTimer.getState()` snapshot. -/
structure TimerSaved where
  remaining : Int
  phase : String
  isActive : Bool
  startTime : Int
deriving DecidableEq, Repr

/-- `GameTimer.restoreState(savedState)`: recomputes remaining time from the
elapsed wall-clock milliseconds since the snapshot's start time, then either
restarts the countdown or completes immediately. The Bool reports whether
the completion callback fired. -/
def restoreStateT (t : GameTimer) (saved : TimerSaved) (now : Int) : GameTimer × Bool :=
  if !saved.isActive then (t, false)
  else
    let elapsed := (now - saved.startTime) / 1000
    let t1 := { t with remaining := max 0 (saved.remaining - elapsed), phase := saved.phase }
    if t1.remaining > 0 then (startT t1 now, false)
    else completeT t1

/-- Per-room timer snapshot saved by `broadcastTimerUpdate` for reconnections
(`room.timerState`). -/
structure TimerSnapshot where
  remaining : Int
  phase : String
  timestamp : Int
deriving DecidableEq, Repr

/-- Game phases held in `room.gameState`. -/
inductive GameState
  | lobby
  | submitting
  | voting
  | results
  | waitingForCategory
  | ended
deriving DecidableEq, Repr

/-- A player object stored in `room.players`. -/
structure Player where
  playerId : Nat
  dbPlayerId : Nat
  socketId : Option Nat
  nickname : String
  score : Nat
  hasSubmitted : Bool
  hasVoted : Bool
  isConnected : Bool
deriving DecidableEq, Repr

/-- A submission pushed into `room.submissions`; `votes` is the JS `Map`
from voter playerId to boolean vote. -/
structure Submission where
  playerId : Nat
  nickname : String
  exemplar : String
  votes : List (Nat × Bool)
deriving DecidableEq, Repr

/-- Per-room timer durations (`room.timerSettings`, seconds). -/
structure TimerSettings where
  submission : Int
  votingPerExemplar : Int
  votingMinimum : Int
  exemplarResult : Int
  summary : Int
  scoreboard : Int
deriving DecidableEq, Repr

/-- Defaults from `createRoom`. -/
def defaultTimerSettings : TimerSettings :=
  { submission := 120, votingPerExemplar := 15, votingMinimum := 30,
    exemplarResult := 5, summary := 15, scoreboard := 10 }

/-- One entry of the per-round results list built by `startResultsPhase`. -/
structure ResultEntry where
  exemplar : String
  submittedBy : String
  votes : List (Nat × Bool)
  yesCount : Nat
  noCount : Nat
  points : Nat
deriving DecidableEq, Repr

/-- The room aggregate. `orphanedTimers` is ghost state recording previously
current `GameTimer` objects after they are replaced: in the source the old
object would keep ticking if its interval were not cleared, so tracking the
discarded objects lets the one-active-timer invariant be stated. -/
structure Room where
  code : String
  players : List (Nat × Player)
  gmSocketId : Option Nat
  displaySocketId : Option Nat
  gameState : GameState
  currentCategory : String
  submissions : List Submission
  round : Nat
  currentTimer : Option GameTimer
  orphanedTimers : List GameTimer
  timerState : Option TimerSnapshot
  phaseStartTime : Option Int
  timerSettings : TimerSettings
  currentResults : List ResultEntry
  currentResultIndex : Int
deriving DecidableEq, Repr

/-- `createRoom(code)`. -/
def createRoom (code : String) : Room :=
  { code := code, players := [], gmSocketId := none, displaySocketId := none,
    gameState := GameState.lobby, currentCategory := "", submissions := [],
    round := 0, currentTimer := none, orphanedTimers := [], timerState := none,
    phaseStartTime := none, timerSettings := defaultTimerSettings,
    currentResults := [], currentResultIndex := 0 }

/-- Yes votes of a submission: entries of the vote map whose value is true. -/
def submissionYes (s : Submission) : Nat :=
  (s.votes.filter (fun v => v.2)).length

/-- No votes: total votes minus yes votes, as in `startResultsPhase`. -/
def submissionNo (s : Submission) : Nat :=
  s.votes.length - submissionYes s

/-- Points for a submission: `Math.min(yesCount, noCount)`. -/
def submissionPoints (s : Submission) : Nat :=
  min (submissionYes s) (submissionNo s)

/-- The result entry `startResultsPhase` pushes for a submission. -/
def resultOf (s : Submission) : ResultEntry :=
  { exemplar := s.exemplar, submittedBy := s.nickname, votes := s.votes,
    yesCount := submissionYes s, noCount := submissionNo s,
    points := submissionPoints s }

/-- Award a submission's points to its submitter's cumulative score
(`submitter.score += points` when the submitter is still in the map). -/
def applyScore (ps : List (Nat × Player)) (s : Submission) : List (Nat × Player) :=
  match mapGet ps s.playerId with
  | some pl => mapSet ps s.playerId { pl with score := pl.score + submissionPoints s }
  | none => ps

/-- `startResultsPhase(room)`: enters results, cancels the timer, scores every
submission and stores the ordered result list with the reveal cursor at -1. -/
def startResultsPhase (room : Room) : Room :=
  { room with
    gameState := GameState.results
    currentTimer := room.currentTimer.map cancelT
    players := room.submissions.foldl applyScore room.players
    currentResults := room.submissions.map resultOf
    currentResultIndex := -1 }

/-- `startSubmissionPhase(room, category)`: resets per-round player flags and
submissions, cancels any existing timer and starts the submission timer.
The replaced timer object is recorded (cancelled) in `orphanedTimers`. -/
def startSubmissionPhase (room : Room) (category : String) (now : Int) : Room :=
  { room with
    gameState := GameState.submitting
    currentCategory := category
    phaseStartTime := some now
    submissions := []
    players := room.players.map
      (fun e => (e.1, { e.2 with hasSubmitted := false, hasVoted := false }))
    currentTimer := some (startT (newTimer room.timerSettings.submission "submission") now)
    orphanedTimers := (room.currentTimer.map cancelT).toList ++ room.orphanedTimers }

/-- Voting duration: `max(votingMinimum, submissions.length * votingPerExemplar)`. -/
def votingTime (room : Room) : Int :=
  max room.timerSettings.votingMinimum
    ((room.submissions.length : Int) * room.timerSettings.votingPerExemplar)

/-- `startVotingPhase(room)`: enters voting, cancels any existing timer,
resets `hasVoted`, clears all submissions' votes, and starts the voting
timer. -/
def startVotingPhase (room : Room) (now : Int) : Room :=
  { room with
    gameState := GameState.voting
    players := room.players.map (fun e => (e.1, { e.2 with hasVoted := false }))
    submissions := room.submissions.map (fun s => { s with votes := [] })
    currentTimer := some (startT (newTimer (votingTime room) "voting") now)
    orphanedTimers := (room.currentTimer.map cancelT).toList ++ room.orphanedTimers }

/-- `checkSubmissionComplete(room)`: early completion of the submitting
phase. Counts players with `hasSubmitted` and compares against
`room.players.size` — the whole player map, connected or not. On success
cancels the timer and starts the voting phase; the Bool is the return. -/
def checkSubmissionComplete (room : Room) (now : Int) : Room × Bool :=
  let submittedCount := ((room.players.map (·.2)).filter (·.hasSubmitted)).length
  if submittedCount = room.players.length ∧ 0 < room.players.length then
    let room1 := { room with currentTimer := room.currentTimer.map cancelT }
    (startVotingPhase room1 now, true)
  else (room, false)

/-- `checkVotingComplete(room)`: early completion of the voting phase, same
counting rule over the whole player map. -/
def checkVotingComplete (room : Room) (_now : Int) : Room × Bool :=
  let votedCount := ((room.players.map (·.2)).filter (·.hasVoted)).length
  if votedCount = room.players.length ∧ 0 < room.players.length then
    let room1 := { room with currentTimer := room.currentTimer.map cancelT }
    (startResultsPhase room1, true)
  else (room, false)

/-- Number of active timer objects attached to the room: the current slot
plus any replaced (orphaned) timer objects still active. -/
def activeTimerCount (room : Room) : Nat :=
  (room.orphanedTimers.filter (·.isActive)).length +
    (match room.currentTimer with
     | some t => if t.isActive then 1 else 0
     | none => 0)

/-- All discarded timer objects have been cancelled. -/
def orphansInactive (room : Room) : Prop :=
  ∀ t ∈ room.orphanedTimers, t.isActive = false

/-- The timer portion of `handlePlayerReconnection`: from the saved snapshot,
elapsed whole seconds are `Math.floor((now - timestamp) / 1000)` and the
remaining time is `Math.max(0, saved.remaining - elapsed)`; timer data is
sent to the reconnecting client only when that remaining time is positive. -/
def reconnectTimerInfo (snap : TimerSnapshot) (now : Int) : Option (Int × String) :=
  let elapsed := (now - snap.timestamp) / 1000
  let remaining := max 0 (snap.remaining - elapsed)
  if remaining > 0 then some (remaining, snap.phase) else none

/-- One row of the persisted `categories` table for a game. -/
structure CatRow where
  text : String
  isPreset : Bool
  used : Bool
  submittedAt : Int
deriving DecidableEq, Repr

/-- The `ORDER BY is_preset ASC, submitted_at ASC` ordering. -/
def catBefore (a b : CatRow) : Prop :=
  if a.isPreset = b.isPreset then a.submittedAt ≤ b.submittedAt
  else a.isPreset = false

instance : DecidableRel catBefore := fun a b => by
  unfold catBefore
  infer_instance

/-- A row of the `getAvailableCategories` query result. -/
structure AvailCat where
  text : String
  isPreset : Bool
deriving DecidableEq, Repr

/-- `getAvailableCategories(gameId)`: the unused rows of the pool in
preset-last, submission-time-ascending order, projected to text and flag. -/
def getAvailableCategories (pool : List CatRow) : List AvailCat :=
  ((pool.filter (fun c => !c.used)).insertionSort catBefore).map
    (fun r => { text := r.text, isPreset := r.isPreset })

/-- `markCategoryAsUsed(gameId, text)`: `UPDATE categories SET was_used = 1
WHERE game_id = ? AND category_text = ?`. -/
def markCategoryAsUsed (pool : List CatRow) (text : String) : List CatRow :=
  pool.map (fun c => if c.text = text then { c with used := true } else c)

/-- `selectNextCategory(room)`: restricts to the player-submitted subset when
it is non-empty, draws the index `Math.floor(Math.random() * pool.length)` —
modelled by the oracle `r`, reduced mod the pool size — marks the choice
used and returns its text, or `null` when nothing is available. Returns the
chosen text and the updated pool. -/
def selectNextCategory (pool : List CatRow) (r : Nat) : Option String × List CatRow :=
  let available := getAvailableCategories pool
  if available.length = 0 then (none, pool)
  else
    let playerPool := available.filter (fun c => !c.isPreset)
    let chosen :=
      if 0 < playerPool.length then
        playerPool.getD (r % playerPool.length) { text := "", isPreset := false }
      else
        available.getD (r % available.length) { text := "", isPreset := false }
    (some chosen.text, markCategoryAsUsed pool chosen.text)

/-- The `start-lobby-game` handler: authorization, the two-player minimum,
then `room.round = 1` followed by category selection; a missing category
only produces an error message. Returns the room, the category pool and the
error (if any) emitted to the acting socket. -/
def startLobbyGame (room : Room) (sid : Nat) (pool : List CatRow) (r : Nat) (now : Int) :
    Room × List CatRow × Option String :=
  if ¬(room.gmSocketId = some sid ∨ room.displaySocketId = some sid) then
    (room, pool, some "Not authorized")
  else if room.players.length < 2 then
    (room, pool, some "Need at least 2 players to start")
  else
    let room1 := { room with round := 1 }
    match selectNextCategory pool r with
    | (some cat, pool1) => (startSubmissionPhase room1 cat now, pool1, none)
    | (none, _) => (room1, pool, some "Unable to start game - no categories available")

/-- Controversy of a result: `Math.abs(yesCount - noCount)`. -/
def controversy (r : ResultEntry) : Nat :=
  ((r.yesCount : Int) - (r.noCount : Int)).natAbs

/-- The `autoShowSummary` sort comparator as an ordering relation: points
descending, ties broken by controversy ascending. JS `Array.sort` is stable,
as is `List.insertionSort`. -/
def summaryBefore (a b : ResultEntry) : Prop :=
  if a.points = b.points then controversy a ≤ controversy b
  else b.points < a.points

instance : DecidableRel summaryBefore := fun a b => by
  unfold summaryBefore
  infer_instance

instance : IsTotal ResultEntry summaryBefore := by
  constructor
  intro a b
  unfold summaryBefore
  by_cases h : a.points = b.points
  · rw [if_pos h, if_pos h.symm]
    exact Nat.le_total (controversy a) (controversy b)
  · rw [if_neg h, if_neg (fun he => h he.symm)]
    omega

instance : IsTrans ResultEntry summaryBefore := by
  constructor
  intro a b c hab hbc
  unfold summaryBefore at hab hbc ⊢
  by_cases h1 : a.points = b.points
  · rw [if_pos h1] at hab
    by_cases h2 : b.points = c.points
    · rw [if_pos h2] at hbc
      rw [if_pos (h1.trans h2)]
      exact le_trans hab hbc
    · rw [if_neg h2] at hbc
      rw [if_neg (show ¬a.points = c.points by omega)]
      omega
  · rw [if_neg h1] at hab
    by_cases h2 : b.points = c.points
    · rw [if_pos h2] at hbc
      rw [if_neg (show ¬a.points = c.points by omega)]
      omega
    · rw [if_neg h2] at hbc
      rw [if_neg (show ¬a.points = c.points by omega)]
      omega

/-- The `show-enhanced-summary` payload. -/
structure SummaryDisplay where
  showAll : Bool
  allResults : List ResultEntry
  topResults : List ResultEntry
  bottomResults : List ResultEntry
  title : String
deriving DecidableEq, Repr

/-- `autoShowSummary(room)` on the round's result list: all results when at
most 6, otherwise the top 3 and bottom 3 (`slice(0,3)` / `slice(-3)`) of the
sorted order. -/
def autoShowSummary (results : List ResultEntry) : SummaryDisplay :=
  let sorted := results.insertionSort summaryBefore
  if sorted.length ≤ 6 then
    { showAll := true, allResults := sorted, topResults := [], bottomResults := [],
      title := "All " ++ toString sorted.length ++ " Exemplars (Most to Least Points)" }
  else
    { showAll := false, allResults := [], topResults := sorted.take 3,
      bottomResults := sorted.drop (sorted.length - 3),
      title := "Top & Bottom Scoring Exemplars" }

/-- Errors emitted as `join-error` by the `join-room` handler. -/
inductive JoinError
  | roomNotFound
  | nicknameRequired
  | nicknameTaken
  | dbFailure
deriving DecidableEq, Repr

/-- JS `String.prototype.toLowerCase` (ASCII-relevant part), over the
character list so that it evaluates by kernel reduction. -/
def lowerStr (s : String) : String :=
  String.mk (s.data.map Char.toLower)

/-- JS `String.prototype.trim`: strip leading and trailing whitespace. -/
def jsTrim (s : String) : String :=
  String.mk (((s.data.dropWhile Char.isWhitespace).reverse.dropWhile
    Char.isWhitespace).reverse)

/-- The `join-room` handler for an existing room: blank-nickname check, then
the case-insensitive uniqueness check restricted to currently connected
players; on success the new player joins with score 0 and fresh flags. -/
def joinRoom (room : Room) (nickname : String) (sid pid dbPid : Nat) :
    Room × Option JoinError :=
  if (jsTrim nickname).length = 0 then (room, some JoinError.nicknameRequired)
  else
    let existingNicknames :=
      ((room.players.map (·.2)).filter (·.isConnected)).map (fun p => lowerStr p.nickname)
    if existingNicknames.contains (lowerStr nickname) then
      (room, some JoinError.nicknameTaken)
    else
      let newPlayer : Player :=
        { playerId := pid, dbPlayerId := dbPid, socketId := some sid,
          nickname := jsTrim nickname, score := 0, hasSubmitted := false,
          hasVoted := false, isConnected := true }
      ({ room with players := mapSet room.players pid newPlayer }, none)

/-- A scheduled room deletion (`setTimeout` in the GM branch of the
disconnect handler): room code and wall-clock firing time in ms. -/
structure PendingDeletion where
  roomCode : String
  fireAt : Int
deriving DecidableEq, Repr

/-- One entry of the process-wide `socketToPlayer` map. Only `join-room`
(`updateSocketMapping` at line 1281) and the reconnection path (line 342)
insert into this map — `create-room` and `join-display` never do. -/
structure SocketMapping where
  roomCode : String
  playerId : Nat
deriving DecidableEq, Repr

/-- Process-wide server state: the room registry, the socket-to-player
identity map, and the deletions scheduled by GM disconnects. -/
structure ServerState where
  rooms : List (String × Room)
  socketToPlayer : List (Nat × SocketMapping)
  pending : List PendingDeletion
deriving DecidableEq, Repr

/-- Grace period before a GM-less room is deleted: 300000 ms (5 minutes). -/
def gmGraceMs : Int := 300000

/-- The `disconnect` handler: looks up the socket in `socketToPlayer` and
returns immediately when there is no mapping; otherwise resolves the room
and runs the GM branch (clear binding, notify connected players, schedule
deletion after the grace period), the display branch (clear display
binding), or the player branch (mark disconnected, null the socket), and
finally removes the socket mapping. Returns the new state and the sockets
notified with gm-disconnected. -/
def handleDisconnect (st : ServerState) (sid : Nat) (now : Int) :
    ServerState × List Nat :=
  match mapGet st.socketToPlayer sid with
  | none => (st, [])
  | some mapping =>
    match mapGet st.rooms mapping.roomCode with
    | none => ({ st with socketToPlayer := mapDelete st.socketToPlayer sid }, [])
    | some room =>
      if room.gmSocketId = some sid then
        let room1 := { room with gmSocketId := none }
        let notified :=
          ((room1.players.map (·.2)).filter
            (fun p => p.isConnected && p.socketId.isSome)).filterMap (·.socketId)
        ({ rooms := mapSet st.rooms mapping.roomCode room1,
           socketToPlayer := mapDelete st.socketToPlayer sid,
           pending := st.pending ++
             [{ roomCode := mapping.roomCode, fireAt := now + gmGraceMs }] },
         notified)
      else if room.displaySocketId = some sid then
        ({ st with
            rooms := mapSet st.rooms mapping.roomCode
              { room with displaySocketId := none },
            socketToPlayer := mapDelete st.socketToPlayer sid }, [])
      else
        let room1 :=
          match mapGet room.players mapping.playerId with
          | some player =>
            { room with
                players := mapSet room.players mapping.playerId
                  { player with isConnected := false, socketId := none } }
          | none => room
        ({ st with
            rooms := mapSet st.rooms mapping.roomCode room1,
            socketToPlayer := mapDelete st.socketToPlayer sid }, [])

/-- The grace-period timeout body: deletes the room only if it still exists
and no GM has rebound in the meantime. -/
def fireDeletion (st : ServerState) (code : String) : ServerState :=
  match mapGet st.rooms code with
  | some room =>
    if room.gmSocketId = none then { st with rooms := mapDelete st.rooms code }
    else st
  | none => st

/-- A JS value arriving in the `votes` payload; `truthy` is the `!!v`
coercion. -/
inductive JsVal
  | b (v : Bool)
  | n (v : Int)
  | s (v : String)
  | nullV
  | undefV
deriving DecidableEq, Repr

/-- JS truthiness, as applied by `!!vote`. -/
def truthy : JsVal → Bool
  | JsVal.b v => v
  | JsVal.n v => decide (v ≠ 0)
  | JsVal.s v => decide (v ≠ "")
  | JsVal.nullV => false
  | JsVal.undefV => false

/-- Accumulate the decimal digits of a character list into a Nat. -/
def digitsToNat (cs : List Char) : Nat :=
  cs.foldl (fun a c => a * 10 + (c.toNat - 48)) 0

/-- JS `parseInt(s, 10)`: skip leading whitespace, optional sign, then the
longest decimal-digit run; `NaN` (here `none`) when no digit follows. -/
def parseIntJS (str : String) : Option Int :=
  let cs := str.data.dropWhile (·.isWhitespace)
  let signAndRest : Int × List Char :=
    match cs with
    | '-' :: t => (-1, t)
    | '+' :: t => (1, t)
    | t => (1, t)
  let ds := signAndRest.2.takeWhile (·.isDigit)
  if ds.isEmpty then none else some (signAndRest.1 * (digitsToNat ds : Int))

/-- One iteration of the `submit-votes` loop: record the vote when the key
parses to the index of an existing submission (`room.submissions[index]`),
otherwise leave the submissions untouched. -/
def applyVoteEntry (pid : Nat) (subs : List Submission) (entry : String × JsVal) :
    List Submission :=
  match parseIntJS entry.1 with
  | some idx =>
    if 0 ≤ idx ∧ idx.toNat < subs.length then
      subs.modify (fun s => { s with votes := mapSet s.votes pid (truthy entry.2) }) idx.toNat
    else subs
  | none => subs

/-- The `submit-votes` handler for a bound player: phase and already-voted
guards, then the vote-recording loop, then `player.hasVoted = true`. Returns
the updated room and the error message (if any) emitted to the socket. -/
def handleSubmitVotes (room : Room) (pid : Nat) (votes : List (String × JsVal)) :
    Room × Option String :=
  match mapGet room.players pid with
  | none => (room, some "Player not found")
  | some player =>
    if room.gameState ≠ GameState.voting then (room, some "Not in voting phase")
    else if player.hasVoted then (room, some "Already voted")
    else
      let subs := votes.foldl (applyVoteEntry pid) room.submissions
      ({ room with
          submissions := subs,
          players := mapSet room.players pid { player with hasVoted := true } },
       none)

/-- Demo room for the scoring claim: player 1's submission has 3 yes / 1 no,
player 2's has 2 yes / 2 no, player 3's is unanimous 4 yes / 0 no. -/
def scoringDemoRoom : Room :=
  { createRoom "AAAA" with
    gameState := GameState.voting
    round := 1
    players :=
      [ (1, { playerId := 1, dbPlayerId := 1, socketId := some 11, nickname := "a",
              score := 5, hasSubmitted := true, hasVoted := true, isConnected := true }),
        (2, { playerId := 2, dbPlayerId := 2, socketId := some 12, nickname := "b",
              score := 0, hasSubmitted := true, hasVoted := true, isConnected := true }),
        (3, { playerId := 3, dbPlayerId := 3, socketId := some 13, nickname := "c",
              score := 7, hasSubmitted := true, hasVoted := true, isConnected := true }) ]
    submissions :=
      [ { playerId := 1, nickname := "a", exemplar := "x",
          votes := [(1, true), (2, true), (3, true), (4, false)] },
        { playerId := 2, nickname := "b", exemplar := "y",
          votes := [(1, true), (2, true), (3, false), (4, false)] },
        { playerId := 3, nickname := "c", exemplar := "z",
          votes := [(1, true), (2, true), (3, true), (4, true)] } ] }

/-- Demo room for the timer-invariant witness: a submitting-phase room with
an active submission timer. -/
def timerDemoRoom : Room :=
  { createRoom "BBBB" with
    gameState := GameState.submitting
    currentTimer := some (startT (newTimer 120 "submission") 0)
    players :=
      [ (1, { playerId := 1, dbPlayerId := 1, socketId := some 11, nickname := "a",
              score := 0, hasSubmitted := true, hasVoted := false, isConnected := true }) ] }

/-- Demo room for the early-completion counterexample: player 1 submitted
and is connected, player 2 never submitted and has disconnected, the
submission timer is running. -/
def earlyDemoRoom : Room :=
  { createRoom "CCCC" with
    gameState := GameState.submitting
    round := 1
    currentCategory := "tools"
    currentTimer := some (startT (newTimer 120 "submission") 0)
    players :=
      [ (1, { playerId := 1, dbPlayerId := 1, socketId := some 11, nickname := "a",
              score := 0, hasSubmitted := true, hasVoted := false, isConnected := true }),
        (2, { playerId := 2, dbPlayerId := 2, socketId := none, nickname := "b",
              score := 0, hasSubmitted := false, hasVoted := false, isConnected := false }) ] }

/-- Demo pool: two unused player-submitted entries among unused presets. -/
def catDemoPool : List CatRow :=
  [ { text := "furniture", isPreset := true, used := false, submittedAt := 0 },
    { text := "tools", isPreset := true, used := false, submittedAt := 1 },
    { text := "cats", isPreset := false, used := false, submittedAt := 2 },
    { text := "dogs", isPreset := false, used := false, submittedAt := 3 } ]

/-- Demo lobby room with two players, and a pool whose entries are all used. -/
def lobbyDemoRoom : Room :=
  { createRoom "DDDD" with
    gmSocketId := some 99
    players :=
      [ (1, { playerId := 1, dbPlayerId := 1, socketId := some 11, nickname := "a",
              score := 0, hasSubmitted := false, hasVoted := false, isConnected := true }),
        (2, { playerId := 2, dbPlayerId := 2, socketId := some 12, nickname := "b",
              score := 0, hasSubmitted := false, hasVoted := false, isConnected := true }) ] }

/-- A category pool whose entries have all been used. -/
def usedUpPool : List CatRow :=
  [ { text := "furniture", isPreset := true, used := true, submittedAt := 0 },
    { text := "cats", isPreset := false, used := true, submittedAt := 1 } ]

/-- Result entry with 1 yes / 1 no: 1 point, controversy 0. -/
def resEven : ResultEntry :=
  { exemplar := "p", submittedBy := "a", votes := [(1, true), (2, false)],
    yesCount := 1, noCount := 1, points := 1 }

/-- Result entry with 3 yes / 1 no: 1 point, controversy 2. -/
def resSkewed : ResultEntry :=
  { exemplar := "q", submittedBy := "b",
    votes := [(1, true), (2, true), (3, true), (4, false)],
    yesCount := 3, noCount := 1, points := 1 }

/-- Seven distinct-point results for the summary threshold witness. -/
def sevenResults : List ResultEntry :=
  (List.range 7).map (fun i =>
    { exemplar := "e", submittedBy := "s", votes := [],
      yesCount := i, noCount := 0, points := i })

/-- The connected player nicknamed Alice used by the join witness. -/
def alicePlayer : Player :=
  { playerId := 1, dbPlayerId := 1, socketId := some 11, nickname := "Alice",
    score := 0, hasSubmitted := false, hasVoted := false, isConnected := true }

/-- Demo room with a connected player nicknamed Alice. -/
def aliceRoom : Room :=
  { createRoom "EEEE" with players := [(1, alicePlayer)] }

/-- The same room after Alice disconnects. -/
def aliceGoneRoom : Room :=
  { createRoom "EEEE" with
    players :=
      [ (1, { playerId := 1, dbPlayerId := 1, socketId := none, nickname := "Alice",
              score := 0, hasSubmitted := false, hasVoted := false, isConnected := false }) ] }

/-- Server state after an ordinary session: room FFFF was created by GM
socket 99 (`create-room` does not touch `socketToPlayer`), player 1 joined
on socket 11 (which did populate `socketToPlayer`), player 2 has already
disconnected. -/
def gmOnlyState : ServerState :=
  { rooms :=
      [ ("FFFF",
          { createRoom "FFFF" with
            gmSocketId := some 99
            players :=
              [ (1, { playerId := 1, dbPlayerId := 1, socketId := some 11,
                      nickname := "a", score := 0, hasSubmitted := false,
                      hasVoted := false, isConnected := true }),
                (2, { playerId := 2, dbPlayerId := 2, socketId := none,
                      nickname := "b", score := 0, hasSubmitted := false,
                      hasVoted := false, isConnected := false }) ] }) ]
    socketToPlayer := [(11, { roomCode := "FFFF", playerId := 1 })]
    pending := [] }

/-- The corner case that can reach the GM branch: the GM's socket 99 also
joined room FFFF as player 3, so `socketToPlayer` has an entry for it. -/
def gmPlayerState : ServerState :=
  { rooms :=
      [ ("FFFF",
          { createRoom "FFFF" with
            gmSocketId := some 99
            players :=
              [ (1, { playerId := 1, dbPlayerId := 1, socketId := some 11,
                      nickname := "a", score := 0, hasSubmitted := false,
                      hasVoted := false, isConnected := true }),
                (3, { playerId := 3, dbPlayerId := 3, socketId := some 99,
                      nickname := "gm", score := 0, hasSubmitted := false,
                      hasVoted := false, isConnected := true }) ] }) ]
    socketToPlayer :=
      [ (11, { roomCode := "FFFF", playerId := 1 }),
        (99, { roomCode := "FFFF", playerId := 3 }) ]
    pending := [] }

/-- A state where a GM has been rebound to room FFFF (gmSocketId set again)
while its grace-period deletion is still pending. -/
def gmReboundState : ServerState :=
  { rooms := [("FFFF", { createRoom "FFFF" with gmSocketId := some 77 })]
    socketToPlayer := []
    pending := [{ roomCode := "FFFF", fireAt := 301000 }] }

/-- Placeholder submission used with `List.getD`. -/
def dfltSub : Submission :=
  { playerId := 0, nickname := "", exemplar := "", votes := [] }

/-- Which submission index (if any) a `votes` key addresses: the key must
parse via `parseInt` and `room.submissions[index]` must exist. -/
def validTarget (len : Nat) (key : String) : Option Nat :=
  match parseIntJS key with
  | some idx => if 0 ≤ idx ∧ idx.toNat < len then some idx.toNat else none
  | none => none

/-- The vote a voter effectively stores on submission `i` after the loop:
the last entry addressing `i`, coerced to boolean. -/
def effectiveVote (votes : List (String × JsVal)) (len : Nat) (i : Nat) : Option Bool :=
  ((votes.filter (fun e => validTarget len e.1 = some i)).map
    (fun e => truthy e.2)).getLast?

/-- The per-submission update performed for one valid vote entry. -/
def voteUpd (pid : Nat) (v : JsVal) (s : Submission) : Submission :=
  { s with votes := mapSet s.votes pid (truthy v) }

/-- Demo voting room for the submit-votes witness: two submissions with
empty vote maps, player 1 yet to vote. -/
def voteDemoRoom : Room :=
  { createRoom "GGGG" with
    gameState := GameState.voting
    round := 1
    players :=
      [ (1, { playerId := 1, dbPlayerId := 1, socketId := some 11, nickname := "a",
              score := 0, hasSubmitted := true, hasVoted := false, isConnected := true }),
        (2, { playerId := 2, dbPlayerId := 2, socketId := some 12, nickname := "b",
              score := 0, hasSubmitted := true, hasVoted := false, isConnected := true }) ]
    submissions :=
      [ { playerId := 1, nickname := "a", exemplar := "x", votes := [] },
        { playerId := 2, nickname := "b", exemplar := "y", votes := [] } ] }

/-- Vote payload mixing valid keys with a non-numeric key and an
out-of-range index. -/
def demoVotes : List (String × JsVal) :=
  [ ("0", JsVal.b true), ("abc", JsVal.b true), ("5", JsVal.b false),
    ("1", JsVal.n 0) ]

theorem mapGet_mapSet_self [BEq κ] [LawfulBEq κ] (m : List (κ × α)) (k : κ) (v : α) :
    mapGet (mapSet m k v) k = some v := by
  induction m with
  | nil => simp [mapGet, mapSet, List.find?]
  | cons e rest ih =>
    obtain ⟨k', v'⟩ := e
    by_cases h : k' = k
    · subst h
      simp [mapGet, mapSet, List.find?]
    · have hbeq : (k' == k) = false := by simpa using h
      simp only [mapSet, hbeq, if_neg]
      simp only [mapGet, List.find?, hbeq] at ih ⊢
      simpa [mapGet] using ih

theorem mapGet_mapSet_ne [BEq κ] [LawfulBEq κ] (m : List (κ × α)) (k q : κ) (v : α)
    (h : q ≠ k) : mapGet (mapSet m k v) q = mapGet m q := by
  induction m with
  | nil =>
    have : (k == q) = false := by simpa using fun he => h he.symm
    simp [mapGet, mapSet, List.find?, this]
  | cons e rest ih =>
    obtain ⟨k', v'⟩ := e
    by_cases hk : k' = k
    · subst hk
      have h1 : (k' == q) = false := by simpa using fun he => h he.symm
      simp [mapGet, mapSet, List.find?, h1]
    · have hbeq : (k' == k) = false := by simpa using hk
      by_cases hq : k' = q
      · subst hq
        simp [mapGet, mapSet, hbeq, List.find?]
      · have hbq : (k' == q) = false := by simp [hq]
        simp only [mapSet, hbeq, if_neg, Bool.false_eq_true, not_false_iff]
        simp only [mapGet, List.find?, hbq] at ih ⊢
        simpa [mapGet] using ih

theorem mapGet_mapDelete_self [BEq κ] [LawfulBEq κ] (m : List (κ × α)) (k : κ) :
    mapGet (mapDelete m k) k = none := by
  induction m with
  | nil => simp [mapGet, mapDelete]
  | cons e rest ih =>
    obtain ⟨k', v'⟩ := e
    by_cases h : k' = k
    · subst h
      simpa [mapDelete] using ih
    · have hbeq : (k' == k) = false := by simpa using h
      simp only [mapDelete, List.filter, hbeq, Bool.not_false]
      simp only [mapGet, List.find?, hbeq]
      simp only [mapDelete, mapGet] at ih
      exact ih

theorem keysUnique_mapSet [BEq κ] [LawfulBEq κ] (m : List (κ × α)) (k : κ) (v : α)
    (h : keysUnique m) : keysUnique (mapSet m k v) := by
  induction m with
  | nil => simp [keysUnique, mapSet]
  | cons e rest ih =>
    obtain ⟨k', v'⟩ := e
    simp only [keysUnique, List.map, List.pairwise_cons] at h
    obtain ⟨hhead, htail⟩ := h
    by_cases hk : k' = k
    · subst hk
      simp only [mapSet, BEq.refl, if_pos]
      exact List.Pairwise.cons hhead htail
    · have hbeq : (k' == k) = false := by simpa using hk
      simp only [mapSet, hbeq, if_neg, Bool.false_eq_true, not_false_iff]
      refine List.Pairwise.cons ?_ (ih htail)
      intro b hb
      have hmem := hb
      rw [show (mapSet rest k v).map (·.1) = (mapSet rest k v).map Prod.fst from rfl] at hmem
      -- keys of mapSet rest k v are among keys of rest plus k
      have key_sub : ∀ b, b ∈ (mapSet rest k v).map Prod.fst → b ∈ rest.map Prod.fst ∨ b = k := by
        clear hmem hb htail ih hhead
        intro b
        induction rest with
        | nil => simp [mapSet]
        | cons f rs ihr =>
          obtain ⟨fk, fv⟩ := f
          by_cases hf : fk = k
          · subst hf
            simp [mapSet]
            tauto
          · have hbf : (fk == k) = false := by simpa using hf
            simp only [mapSet, hbf, if_neg, Bool.false_eq_true, not_false_iff, List.map, List.mem_cons]
            intro hcase
            rcases hcase with hcase | hcase
            · exact Or.inl (Or.inl hcase)
            · rcases ihr hcase with h1 | h1
              · exact Or.inl (Or.inr h1)
              · exact Or.inr h1
      rcases key_sub b hmem with hin | hbk
      · exact hhead b hin
      · subst hbk
        exact hbeq

theorem keysUnique_nil [BEq κ] : keysUnique ([] : List (κ × α)) := by
  simp [keysUnique]

theorem applyScore_get_ne (ps : List (Nat × Player)) (s : Submission) (p : Nat)
    (h : s.playerId ≠ p) : mapGet (applyScore ps s) p = mapGet ps p := by
  unfold applyScore
  cases hg : mapGet ps s.playerId with
  | none => rfl
  | some pl => exact mapGet_mapSet_ne ps s.playerId p _ (fun he => h he.symm)

theorem foldl_applyScore_not_mem (subs : List Submission) (ps : List (Nat × Player)) (p : Nat)
    (h : ∀ s ∈ subs, s.playerId ≠ p) :
    mapGet (subs.foldl applyScore ps) p = mapGet ps p := by
  induction subs generalizing ps with
  | nil => rfl
  | cons s rest ih =>
    rw [List.foldl_cons, ih _ (fun x hx => h x (List.mem_cons_of_mem s hx))]
    exact applyScore_get_ne ps s p (h s (List.mem_cons_self s rest))

theorem foldl_applyScore_single (subs : List Submission) (ps : List (Nat × Player))
    (p : Nat) (pl : Player) (s0 : Submission)
    (hp : mapGet ps p = some pl)
    (hs : subs.filter (fun s => s.playerId == p) = [s0]) :
    mapGet (subs.foldl applyScore ps) p =
      some { pl with score := pl.score + submissionPoints s0 } := by
  induction subs generalizing ps pl with
  | nil => simp at hs
  | cons s rest ih =>
    by_cases hhead : s.playerId = p
    · have hb : (s.playerId == p) = true := by simpa using hhead
      simp only [List.filter_cons, hb, if_true] at hs
      obtain ⟨hs0, hrest⟩ : s = s0 ∧ rest.filter (fun s => s.playerId == p) = [] := by
        exact ⟨(List.cons_eq_cons.mp hs).1, (List.cons_eq_cons.mp hs).2⟩
      subst hs0
      have hrest' : ∀ x ∈ rest, x.playerId ≠ p := by
        intro x hx he
        have hxt : (x.playerId == p) = true := by simpa using he
        have hmemf : x ∈ rest.filter (fun s => s.playerId == p) :=
          List.mem_filter.mpr ⟨hx, hxt⟩
        rw [hrest] at hmemf
        simp at hmemf
      rw [List.foldl_cons, foldl_applyScore_not_mem rest _ p hrest']
      unfold applyScore
      rw [hhead, hp]
      exact mapGet_mapSet_self ps p _
    · have hb : (s.playerId == p) = false := by simpa using hhead
      simp only [List.filter_cons, hb, Bool.false_eq_true, if_false] at hs
      rw [List.foldl_cons]
      exact ih (applyScore ps s) pl (by rw [applyScore_get_ne ps s p hhead]; exact hp) hs

/-- C1: at results time every submission's vote map is partitioned into yes
and no counts with `points = min(yesCount, noCount)`, and exactly that many
points are added to the submitting player's cumulative score (stated for a
player with a single submission in the round, which is what the
already-submitted guard enforces). -/
theorem scoring_min_partition_and_award (room : Room) (p : Nat) (pl : Player)
    (s0 : Submission)
    (hp : mapGet room.players p = some pl)
    (hs : room.submissions.filter (fun s => s.playerId == p) = [s0]) :
    (∀ re ∈ (startResultsPhase room).currentResults,
        re.yesCount = (re.votes.filter (fun v => v.2)).length ∧
        re.noCount = re.votes.length - re.yesCount ∧
        re.points = min re.yesCount re.noCount) ∧
    mapGet (startResultsPhase room).players p =
      some { pl with score := pl.score + min (submissionYes s0) (submissionNo s0) } := by
  constructor
  · intro re hre
    simp only [startResultsPhase, List.mem_map] at hre
    obtain ⟨s, _, rfl⟩ := hre
    exact ⟨rfl, rfl, rfl⟩
  · show mapGet (room.submissions.foldl applyScore room.players) p = _
    exact foldl_applyScore_single room.submissions room.players p pl s0 hp hs

/-- Witness for C1: in the demo room the 3-yes/1-no submission earns exactly
1 point (score 5 becomes 6), the 2/2 one earns 2, and the unanimous one
earns 0, and the result entries carry points [1, 2, 0]. -/
theorem scoring_min_partition_and_award_witness :
    (mapGet (startResultsPhase scoringDemoRoom).players 1).map (·.score) = some 6 ∧
    (mapGet (startResultsPhase scoringDemoRoom).players 2).map (·.score) = some 2 ∧
    (mapGet (startResultsPhase scoringDemoRoom).players 3).map (·.score) = some 7 ∧
    (startResultsPhase scoringDemoRoom).currentResults.map (·.points) = [1, 2, 0] := by
  refine ⟨?_, by decide, by decide, by decide⟩
  have h := scoring_min_partition_and_award scoringDemoRoom 1
    { playerId := 1, dbPlayerId := 1, socketId := some 11, nickname := "a",
      score := 5, hasSubmitted := true, hasVoted := true, isConnected := true }
    { playerId := 1, nickname := "a", exemplar := "x",
      votes := [(1, true), (2, true), (3, true), (4, false)] }
    (by decide) (by decide)
  rw [h.2]
  decide

theorem cancelT_isActive (t : GameTimer) : (cancelT t).isActive = false := rfl

theorem orphansInactive_replaceTimer (room : Room) (h : orphansInactive room) :
    ∀ t ∈ (room.currentTimer.map cancelT).toList ++ room.orphanedTimers,
      t.isActive = false := by
  intro t ht
  rcases List.mem_append.mp ht with hl | hr
  · cases hc : room.currentTimer with
    | none => rw [hc] at hl; simp at hl
    | some c =>
      rw [hc] at hl
      simp at hl
      rw [hl]
      rfl
  · exact h t hr

theorem activeTimerCount_le_one (r : Room) (h : orphansInactive r) :
    activeTimerCount r ≤ 1 := by
  unfold activeTimerCount
  have hnil : r.orphanedTimers.filter (·.isActive) = [] := by
    apply List.filter_eq_nil_iff.mpr
    intro t ht
    simp [h t ht]
  rw [hnil]
  simp only [List.length_nil, Nat.zero_add]
  cases r.currentTimer with
  | none => exact Nat.zero_le 1
  | some t =>
    by_cases ha : t.isActive
    · simp [ha]
    · simp [ha]

theorem orphansInactive_startSubmissionPhase (room : Room) (cat : String) (now : Int)
    (h : orphansInactive room) : orphansInactive (startSubmissionPhase room cat now) :=
  orphansInactive_replaceTimer room h

theorem orphansInactive_startVotingPhase (room : Room) (now : Int)
    (h : orphansInactive room) : orphansInactive (startVotingPhase room now) :=
  orphansInactive_replaceTimer room h

theorem orphansInactive_startResultsPhase (room : Room)
    (h : orphansInactive room) : orphansInactive (startResultsPhase room) := h

theorem orphansInactive_checkSubmissionComplete (room : Room) (now : Int)
    (h : orphansInactive room) : orphansInactive (checkSubmissionComplete room now).1 := by
  by_cases hc : ((room.players.map (·.2)).filter (·.hasSubmitted)).length = room.players.length
      ∧ 0 < room.players.length
  · simp only [checkSubmissionComplete, hc, if_true]
    exact orphansInactive_startVotingPhase _ now h
  · simp only [checkSubmissionComplete, hc, if_false]
    exact h

theorem orphansInactive_checkVotingComplete (room : Room) (now : Int)
    (h : orphansInactive room) : orphansInactive (checkVotingComplete room now).1 := by
  by_cases hc : ((room.players.map (·.2)).filter (·.hasVoted)).length = room.players.length
      ∧ 0 < room.players.length
  · simp only [checkVotingComplete, hc, if_true]
    exact orphansInactive_startResultsPhase _ h
  · simp only [checkVotingComplete, hc, if_false]
    exact h

/-- C3: starting from a room whose discarded timers are all cancelled, every
phase-start operation (and both early-completion checks) first cancels the
room's prior timer — so all discarded timer objects stay cancelled — and the
room never has more than one active timer. -/
theorem single_active_timer_invariant (room : Room) (cat : String) (now : Int)
    (h : orphansInactive room) :
    (orphansInactive (startSubmissionPhase room cat now) ∧
      activeTimerCount (startSubmissionPhase room cat now) ≤ 1) ∧
    (orphansInactive (startVotingPhase room now) ∧
      activeTimerCount (startVotingPhase room now) ≤ 1) ∧
    (orphansInactive (startResultsPhase room) ∧
      activeTimerCount (startResultsPhase room) ≤ 1) ∧
    (orphansInactive (checkSubmissionComplete room now).1 ∧
      activeTimerCount (checkSubmissionComplete room now).1 ≤ 1) ∧
    (orphansInactive (checkVotingComplete room now).1 ∧
      activeTimerCount (checkVotingComplete room now).1 ≤ 1) := by
  refine ⟨⟨?_, ?_⟩, ⟨?_, ?_⟩, ⟨?_, ?_⟩, ⟨?_, ?_⟩, ⟨?_, ?_⟩⟩
  · exact orphansInactive_startSubmissionPhase room cat now h
  · exact activeTimerCount_le_one _ (orphansInactive_startSubmissionPhase room cat now h)
  · exact orphansInactive_startVotingPhase room now h
  · exact activeTimerCount_le_one _ (orphansInactive_startVotingPhase room now h)
  · exact orphansInactive_startResultsPhase room h
  · exact activeTimerCount_le_one _ (orphansInactive_startResultsPhase room h)
  · exact orphansInactive_checkSubmissionComplete room now h
  · exact activeTimerCount_le_one _ (orphansInactive_checkSubmissionComplete room now h)
  · exact orphansInactive_checkVotingComplete room now h
  · exact activeTimerCount_le_one _ (orphansInactive_checkVotingComplete room now h)

/-- Witness for C3 at a concrete room: after each phase-start the room holds
at most one active timer and the replaced timer is cancelled. -/
theorem single_active_timer_invariant_witness :
    activeTimerCount (startVotingPhase timerDemoRoom 5) ≤ 1 ∧
    orphansInactive (startVotingPhase timerDemoRoom 5) := by
  have h := single_active_timer_invariant timerDemoRoom "tools" 5
    (by intro t ht; simp [timerDemoRoom, createRoom] at ht)
  exact ⟨h.2.1.2, h.2.1.1⟩

/-- Counterexample to C2: in `earlyDemoRoom` every currently-connected
player has submitted, yet `checkSubmissionComplete` does not transition —
the room stays in `submitting`, untouched — because the count is compared
against the whole player map and the disconnected non-submitter blocks it. -/
theorem early_completion_connected_counterexample :
    (∀ p ∈ earlyDemoRoom.players.map (·.2), p.isConnected = true → p.hasSubmitted = true) ∧
    (∃ p ∈ earlyDemoRoom.players.map (·.2), p.isConnected = false ∧ p.hasSubmitted = false) ∧
    (checkSubmissionComplete earlyDemoRoom 42).2 = false ∧
    (checkSubmissionComplete earlyDemoRoom 42).1 = earlyDemoRoom ∧
    earlyDemoRoom.gameState = GameState.submitting := by
  exact ⟨by decide, by decide, by decide, by decide, rfl⟩

/-- C2 (amended): the early-completion short-circuit fires exactly when
every player in the room map — connected or disconnected alike — has
`hasSubmitted = true` (and the room is non-empty): the room then transitions
to voting immediately, every discarded timer is cancelled, and a cancelled
timer never ticks again. -/
theorem early_completion_all_players (room : Room) (now : Int)
    (hall : ∀ p ∈ room.players.map (·.2), p.hasSubmitted = true)
    (hne : 0 < room.players.length)
    (horph : orphansInactive room) :
    (checkSubmissionComplete room now).2 = true ∧
    (checkSubmissionComplete room now).1.gameState = GameState.voting ∧
    orphansInactive (checkSubmissionComplete room now).1 ∧
    (∀ t : GameTimer, t.isActive = false → tickT t = (t, false, false)) := by
  have hfil : (room.players.map (·.2)).filter (·.hasSubmitted) = room.players.map (·.2) :=
    List.filter_eq_self.mpr (fun p hp => by simp [hall p hp])
  have hc : ((room.players.map (·.2)).filter (·.hasSubmitted)).length = room.players.length
      ∧ 0 < room.players.length := by
    rw [hfil, List.length_map]
    exact ⟨rfl, hne⟩
  refine ⟨?_, ?_, orphansInactive_checkSubmissionComplete room now horph, ?_⟩
  · simp only [checkSubmissionComplete, hc, and_self, if_true]
  · simp only [checkSubmissionComplete, hc, and_self, if_true]
    rfl
  · intro t ht
    simp [tickT, ht]

/-- Witness for the amended C2: a room where both players submitted (one of
them disconnected) transitions to voting at once. -/
theorem early_completion_all_players_witness :
    (checkSubmissionComplete
      { earlyDemoRoom with
        players :=
          [ (1, { playerId := 1, dbPlayerId := 1, socketId := some 11, nickname := "a",
                  score := 0, hasSubmitted := true, hasVoted := false, isConnected := true }),
            (2, { playerId := 2, dbPlayerId := 2, socketId := none, nickname := "b",
                  score := 0, hasSubmitted := true, hasVoted := false, isConnected := false }) ] }
      42).2 = true := by
  exact (early_completion_all_players _ 42 (by decide) (by decide)
    (by intro t ht; simp [earlyDemoRoom, createRoom] at ht)).1

/-- C4: on reconnection the reported remaining time is
`max(0, savedRemaining - elapsed)` with `elapsed` the whole seconds since
the snapshot's wall-clock timestamp (timer data is sent only while it is
positive), and restoring a running timer whose saved time has fully elapsed
completes the phase immediately. -/
theorem reconnect_remaining_time (snap : TimerSnapshot) (t : GameTimer)
    (saved : TimerSaved) (now : Int)
    (hts : snap.timestamp ≤ now)
    (hta : t.isActive = true) (hsa : saved.isActive = true) :
    ((now - snap.timestamp) / 1000 < snap.remaining →
      reconnectTimerInfo snap now =
        some (snap.remaining - (now - snap.timestamp) / 1000, snap.phase)) ∧
    (snap.remaining ≤ (now - snap.timestamp) / 1000 →
      reconnectTimerInfo snap now = none) ∧
    (saved.remaining ≤ (now - saved.startTime) / 1000 →
      (restoreStateT t saved now).2 = true ∧
        (restoreStateT t saved now).1.isActive = false) ∧
    ((now - saved.startTime) / 1000 < saved.remaining →
      (restoreStateT t saved now).2 = false ∧
        (restoreStateT t saved now).1.isActive = true ∧
        (restoreStateT t saved now).1.remaining =
          saved.remaining - (now - saved.startTime) / 1000) := by
  refine ⟨?_, ?_, ?_, ?_⟩
  · intro hlt
    have hmax : max 0 (snap.remaining - (now - snap.timestamp) / 1000) =
        snap.remaining - (now - snap.timestamp) / 1000 := by omega
    have hpos : 0 < snap.remaining - (now - snap.timestamp) / 1000 := by omega
    simp only [reconnectTimerInfo, hmax]
    rw [if_pos hpos]
  · intro hge
    have hmax : max 0 (snap.remaining - (now - snap.timestamp) / 1000) = 0 := by omega
    simp only [reconnectTimerInfo, hmax]
    rfl
  · intro hge
    have hmax : max 0 (saved.remaining - (now - saved.startTime) / 1000) = 0 := by omega
    simp only [restoreStateT, hsa, Bool.not_true, Bool.false_eq_true, if_false, hmax]
    simp only [completeT, hta, if_true]
    exact ⟨rfl, rfl⟩
  · intro hlt
    have hmax : max 0 (saved.remaining - (now - saved.startTime) / 1000) =
        saved.remaining - (now - saved.startTime) / 1000 := by omega
    have hpos : 0 < saved.remaining - (now - saved.startTime) / 1000 := by omega
    simp only [restoreStateT, hsa, Bool.not_true, Bool.false_eq_true, if_false, hmax]
    rw [if_pos hpos]
    simp [startT, hta]

/-- Witness for C4: a snapshot with remaining 60 reconnected 10 seconds
later reports remaining 50, and a running timer restored 70 seconds after a
60-second snapshot completes immediately. -/
theorem reconnect_remaining_time_witness :
    reconnectTimerInfo
      { remaining := 60, phase := "submission", timestamp := 100000 } 110000 =
      some (50, "submission") ∧
    (restoreStateT (startT (newTimer 60 "submission") 100000)
      { remaining := 60, phase := "submission", isActive := true, startTime := 100000 }
      170000).2 = true := by
  constructor
  · have h := reconnect_remaining_time
      { remaining := 60, phase := "submission", timestamp := 100000 }
      (startT (newTimer 60 "submission") 100000)
      { remaining := 60, phase := "submission", isActive := true, startTime := 100000 }
      110000 (by decide) (by decide) (by decide)
    have := h.1 (by decide)
    simpa using this
  · have h := reconnect_remaining_time
      { remaining := 60, phase := "submission", timestamp := 100000 }
      (startT (newTimer 60 "submission") 100000)
      { remaining := 60, phase := "submission", isActive := true, startTime := 100000 }
      170000 (by decide) (by decide) (by decide)
    exact (h.2.2.1 (by decide)).1

theorem getAvailableCategories_length (pool : List CatRow) :
    (getAvailableCategories pool).length = (pool.filter (fun c => !c.used)).length := by
  unfold getAvailableCategories
  rw [List.length_map]
  exact (List.perm_insertionSort catBefore (pool.filter (fun c => !c.used))).length_eq

theorem mem_getAvailableCategories (pool : List CatRow) (a : AvailCat) :
    a ∈ getAvailableCategories pool ↔
      ∃ c ∈ pool, c.used = false ∧ a = { text := c.text, isPreset := c.isPreset } := by
  unfold getAvailableCategories
  rw [List.mem_map]
  constructor
  · rintro ⟨row, hrow, rfl⟩
    rw [(List.perm_insertionSort catBefore (pool.filter (fun c => !c.used))).mem_iff] at hrow
    obtain ⟨hmem, hused⟩ := List.mem_filter.mp hrow
    exact ⟨row, hmem, by simpa using hused, rfl⟩
  · rintro ⟨c, hmem, hused, rfl⟩
    refine ⟨c, ?_, rfl⟩
    rw [(List.perm_insertionSort catBefore (pool.filter (fun c => !c.used))).mem_iff]
    exact List.mem_filter.mpr ⟨hmem, by simp [hused]⟩

theorem markCategoryAsUsed_text_used (pool : List CatRow) (text : String) :
    ∀ d ∈ markCategoryAsUsed pool text, d.text = text → d.used = true := by
  intro d hd htext
  unfold markCategoryAsUsed at hd
  obtain ⟨c, _, rfl⟩ := List.mem_map.mp hd
  by_cases hc : c.text = text
  · simp [hc]
  · rw [if_neg hc] at htext ⊢
    exact absurd htext hc

/-- C5: whenever the unused pool contains a player/host-submitted entry,
`selectNextCategory` returns the text of some unused non-preset entry
(whatever index the random oracle draws), marking the chosen text used in
the pool; and it returns the not-found signal exactly when the unused pool
is empty. -/
theorem category_selection (pool : List CatRow) (r : Nat) :
    ((selectNextCategory pool r).1 = none ↔ pool.filter (fun c => !c.used) = []) ∧
    ((∃ c ∈ pool, c.used = false ∧ c.isPreset = false) →
      ∃ c ∈ pool, c.used = false ∧ c.isPreset = false ∧
        (selectNextCategory pool r).1 = some c.text ∧
        (selectNextCategory pool r).2 = markCategoryAsUsed pool c.text ∧
        ∀ d ∈ (selectNextCategory pool r).2, d.text = c.text → d.used = true) := by
  constructor
  · by_cases hemp : (getAvailableCategories pool).length = 0
    · simp only [selectNextCategory, hemp, if_true]
      have : (pool.filter (fun c => !c.used)).length = 0 := by
        rw [← getAvailableCategories_length]; exact hemp
      simp [List.length_eq_zero.mp this]
    · simp only [selectNextCategory, hemp, if_false]
      have : pool.filter (fun c => !c.used) ≠ [] := by
        intro hnil
        apply hemp
        rw [getAvailableCategories_length, hnil]
        rfl
      simp [this]
  · rintro ⟨c0, hc0mem, hc0used, hc0preset⟩
    have hc0A : ({ text := c0.text, isPreset := c0.isPreset } : AvailCat) ∈
        getAvailableCategories pool :=
      (mem_getAvailableCategories pool _).mpr ⟨c0, hc0mem, hc0used, rfl⟩
    have hc0P : ({ text := c0.text, isPreset := c0.isPreset } : AvailCat) ∈
        (getAvailableCategories pool).filter (fun c => !c.isPreset) :=
      List.mem_filter.mpr ⟨hc0A, by simp [hc0preset]⟩
    have hPpos : 0 < ((getAvailableCategories pool).filter (fun c => !c.isPreset)).length :=
      List.length_pos.mpr (List.ne_nil_of_mem hc0P)
    have hApos : (getAvailableCategories pool).length ≠ 0 := by
      intro h0
      have := List.length_eq_zero.mp h0
      rw [this] at hc0A
      simp at hc0A
    have hidx : r % ((getAvailableCategories pool).filter (fun c => !c.isPreset)).length <
        ((getAvailableCategories pool).filter (fun c => !c.isPreset)).length :=
      Nat.mod_lt r hPpos
    set P := (getAvailableCategories pool).filter (fun c => !c.isPreset) with hPdef
    set chosen := P.getD (r % P.length) { text := "", isPreset := false } with hchdef
    have hchosenP : chosen ∈ P := by
      rw [hchdef, List.getD_eq_getElem P _ hidx]
      exact List.getElem_mem hidx
    obtain ⟨hchosenA, hchosenNp⟩ := List.mem_filter.mp hchosenP
    obtain ⟨row, hrowmem, hrowused, hroweq⟩ :=
      (mem_getAvailableCategories pool chosen).mp hchosenA
    have hrowpreset : row.isPreset = false := by
      have : chosen.isPreset = row.isPreset := by rw [hroweq]
      rw [← this]
      simpa using hchosenNp
    have hresult : selectNextCategory pool r =
        (some chosen.text, markCategoryAsUsed pool chosen.text) := by
      simp only [selectNextCategory, hApos, if_false, ← hPdef, hPpos, if_true, ← hchdef]
    refine ⟨row, hrowmem, hrowused, hrowpreset, ?_, ?_, ?_⟩
    · rw [hresult]
      have : chosen.text = row.text := by rw [hroweq]
      rw [this]
    · rw [hresult]
      have : chosen.text = row.text := by rw [hroweq]
      rw [this]
    · have : chosen.text = row.text := by rw [hroweq]
      rw [hresult, this]
      exact markCategoryAsUsed_text_used pool row.text

/-- Witness for C5: with 2 unused player-submitted entries in the pool the
selection returns a player-submitted text for the drawn oracle index. -/
theorem category_selection_witness :
    ∃ c ∈ catDemoPool, c.used = false ∧ c.isPreset = false ∧
      (selectNextCategory catDemoPool 0).1 = some c.text ∧
      (selectNextCategory catDemoPool 0).2 = markCategoryAsUsed catDemoPool c.text ∧
      ∀ d ∈ (selectNextCategory catDemoPool 0).2, d.text = c.text → d.used = true := by
  exact (category_selection catDemoPool 0).2
    ⟨{ text := "cats", isPreset := false, used := false, submittedAt := 2 },
      by decide, rfl, rfl⟩

theorem selectNextCategory_none (pool : List CatRow) (r : Nat)
    (h : pool.filter (fun c => !c.used) = []) :
    selectNextCategory pool r = (none, pool) := by
  have hlen : (getAvailableCategories pool).length = 0 := by
    rw [getAvailableCategories_length, h]
    rfl
  simp [selectNextCategory, hlen]

/-- Counterexample to C6: starting from the lobby (round 0) with 2 players
and an exhausted pool surfaces an error and keeps the phase at lobby, but
the round counter has been set to 1 — it does not keep its prior value. -/
theorem start_lobby_round_counterexample :
    lobbyDemoRoom.round = 0 ∧
    (startLobbyGame lobbyDemoRoom 99 usedUpPool 0 42).2.2 =
      some "Unable to start game - no categories available" ∧
    (startLobbyGame lobbyDemoRoom 99 usedUpPool 0 42).1.gameState = GameState.lobby ∧
    (startLobbyGame lobbyDemoRoom 99 usedUpPool 0 42).1.round = 1 := by
  have hsel : selectNextCategory usedUpPool 0 = (none, usedUpPool) :=
    selectNextCategory_none usedUpPool 0 (by decide)
  have hrun : startLobbyGame lobbyDemoRoom 99 usedUpPool 0 42 =
      ({ lobbyDemoRoom with round := 1 }, usedUpPool,
        some "Unable to start game - no categories available") := by
    have hauth : lobbyDemoRoom.gmSocketId = some 99 ∨ lobbyDemoRoom.displaySocketId = some 99 :=
      Or.inl rfl
    unfold startLobbyGame
    rw [if_neg (not_not_intro hauth), if_neg (by decide), hsel]
  rw [hrun]
  exact ⟨rfl, rfl, rfl, rfl⟩

/-- C6 (amended): with at least 2 players and an exhausted category pool the
start-game action fails with an error surfaced to the acting connection, the
phase stays lobby and the pool and all other room state are unchanged —
except the round counter, which the handler sets to 1 before attempting
category selection, so it does not keep its prior value. -/
theorem start_lobby_no_categories (room : Room) (sid : Nat) (pool : List CatRow)
    (r : Nat) (now : Int)
    (hauth : room.gmSocketId = some sid ∨ room.displaySocketId = some sid)
    (hplayers : 2 ≤ room.players.length)
    (hpool : pool.filter (fun c => !c.used) = []) :
    startLobbyGame room sid pool r now =
      ({ room with round := 1 }, pool,
        some "Unable to start game - no categories available") := by
  unfold startLobbyGame
  rw [if_neg (not_not_intro hauth), if_neg (Nat.not_lt.mpr hplayers),
    selectNextCategory_none pool r hpool]

/-- Witness for the amended C6: the demo lobby room with the used-up pool
fails with the no-categories error, stays in lobby, and ends at round 1. -/
theorem start_lobby_no_categories_witness :
    startLobbyGame lobbyDemoRoom 99 usedUpPool 0 42 =
      ({ lobbyDemoRoom with round := 1 }, usedUpPool,
        some "Unable to start game - no categories available") := by
  exact start_lobby_no_categories lobbyDemoRoom 99 usedUpPool 0 42
    (Or.inl rfl) (by decide) (by decide)

/-- Counterexample to C7: two results with equal points, controversies 2 and
0. The summary orders the smaller-controversy result first — the comparator
returns `aControversy - bControversy`, controversy ascending — not the
larger-controversy one as the claim states. -/
theorem summary_tiebreak_counterexample :
    resEven.points = resSkewed.points ∧
    controversy resEven < controversy resSkewed ∧
    (autoShowSummary [resSkewed, resEven]).showAll = true ∧
    (autoShowSummary [resSkewed, resEven]).allResults = [resEven, resSkewed] := by
  refine ⟨rfl, by decide, ?_, ?_⟩
  · rfl
  · show (autoShowSummary [resSkewed, resEven]).allResults = [resEven, resSkewed]
    rfl

/-- C7 (amended): the summary shows all results when there are at most 6
(`showAll = true`) and only the top 3 and bottom 3 of the sorted order when
there are more (`showAll = false`); the order is points descending, and
among results with equal points the result with the smaller controversy
`|yesCount - noCount|` sorts first (controversy ascending). -/
theorem summary_display (results : List ResultEntry) :
    (results.insertionSort summaryBefore).Perm results ∧
    List.Sorted summaryBefore (results.insertionSort summaryBefore) ∧
    (results.length ≤ 6 →
      (autoShowSummary results).showAll = true ∧
      (autoShowSummary results).allResults = results.insertionSort summaryBefore) ∧
    (6 < results.length →
      (autoShowSummary results).showAll = false ∧
      (autoShowSummary results).topResults =
        (results.insertionSort summaryBefore).take 3 ∧
      (autoShowSummary results).bottomResults =
        (results.insertionSort summaryBefore).drop (results.length - 3)) := by
  have hlen : (results.insertionSort summaryBefore).length = results.length :=
    (List.perm_insertionSort summaryBefore results).length_eq
  refine ⟨List.perm_insertionSort summaryBefore results,
    List.sorted_insertionSort summaryBefore results, ?_, ?_⟩
  · intro h6
    have hcond : (results.insertionSort summaryBefore).length ≤ 6 := by omega
    constructor
    · simp only [autoShowSummary, hcond, if_true]
    · simp only [autoShowSummary, hcond, if_true]
  · intro h6
    have hcond : ¬(results.insertionSort summaryBefore).length ≤ 6 := by omega
    refine ⟨?_, ?_, ?_⟩
    · simp only [autoShowSummary, hcond, if_false]
    · simp only [autoShowSummary, hcond, if_false]
    · simp only [autoShowSummary, hcond, if_false]
      rw [hlen]

/-- Witness for the amended C7: with 7 results the summary hides the middle,
showing the top 3 and bottom 3 of the points-descending order. -/
theorem summary_display_witness :
    (autoShowSummary sevenResults).showAll = false ∧
    (autoShowSummary sevenResults).topResults.map (·.points) = [6, 5, 4] ∧
    (autoShowSummary sevenResults).bottomResults.map (·.points) = [2, 1, 0] := by
  have h := (summary_display sevenResults).2.2.2 (by decide)
  refine ⟨h.1, ?_, ?_⟩
  · rw [h.2.1]
    rfl
  · rw [h.2.2]
    rfl

theorem joinRoom_contains_iff (room : Room) (nickname : String) :
    ((((room.players.map (·.2)).filter (·.isConnected)).map
        (fun p => lowerStr p.nickname)).contains (lowerStr nickname) = true) ↔
      ∃ p ∈ room.players.map (·.2), p.isConnected = true ∧
        lowerStr p.nickname = lowerStr nickname := by
  rw [List.elem_iff, List.mem_map]
  constructor
  · rintro ⟨p, hp, heq⟩
    obtain ⟨hmem, hconn⟩ := List.mem_filter.mp hp
    exact ⟨p, hmem, by simpa using hconn, heq⟩
  · rintro ⟨p, hmem, hconn, heq⟩
    exact ⟨p, List.mem_filter.mpr ⟨hmem, by simp [hconn]⟩, heq⟩

/-- C8: joining fails with NicknameTaken exactly when the nickname is
case-insensitively equal to a currently-connected player's nickname
(disconnected players' nicknames do not block); on any failure no player is
added, and when no connected player matches, the join succeeds and the
player is registered. -/
theorem nickname_uniqueness (room : Room) (nickname : String) (sid pid dbPid : Nat)
    (hnb : (jsTrim nickname).length ≠ 0) :
    ((joinRoom room nickname sid pid dbPid).2 = some JoinError.nicknameTaken ↔
      ∃ p ∈ room.players.map (·.2), p.isConnected = true ∧
        lowerStr p.nickname = lowerStr nickname) ∧
    (∀ e, (joinRoom room nickname sid pid dbPid).2 = some e →
      (joinRoom room nickname sid pid dbPid).1 = room) ∧
    ((¬∃ p ∈ room.players.map (·.2), p.isConnected = true ∧
        lowerStr p.nickname = lowerStr nickname) →
      (joinRoom room nickname sid pid dbPid).2 = none ∧
      mapGet (joinRoom room nickname sid pid dbPid).1.players pid = some
        { playerId := pid, dbPlayerId := dbPid, socketId := some sid,
          nickname := jsTrim nickname, score := 0, hasSubmitted := false,
          hasVoted := false, isConnected := true }) := by
  by_cases hmem : ∃ p ∈ room.players.map (·.2), p.isConnected = true ∧
      lowerStr p.nickname = lowerStr nickname
  · have hcontains : (((room.players.map (·.2)).filter (·.isConnected)).map
        (fun p => lowerStr p.nickname)).contains (lowerStr nickname) = true :=
      (joinRoom_contains_iff room nickname).mpr hmem
    have hrun : joinRoom room nickname sid pid dbPid =
        (room, some JoinError.nicknameTaken) := by
      unfold joinRoom
      rw [if_neg hnb]
      simp only [hcontains, if_true]
    rw [hrun]
    exact ⟨⟨fun _ => hmem, fun _ => rfl⟩, fun e _ => rfl, fun hne => absurd hmem hne⟩
  · have hcontains : (((room.players.map (·.2)).filter (·.isConnected)).map
        (fun p => lowerStr p.nickname)).contains (lowerStr nickname) = false := by
      by_contra hc
      exact hmem ((joinRoom_contains_iff room nickname).mp
        (eq_true_of_ne_false hc))
    have hrun : (joinRoom room nickname sid pid dbPid).2 = none ∧
        (joinRoom room nickname sid pid dbPid).1.players =
          mapSet room.players pid
            { playerId := pid, dbPlayerId := dbPid, socketId := some sid,
              nickname := jsTrim nickname, score := 0, hasSubmitted := false,
              hasVoted := false, isConnected := true } := by
      unfold joinRoom
      rw [if_neg hnb]
      simp only [hcontains, Bool.false_eq_true, if_false]
      constructor <;> trivial
    refine ⟨⟨fun h => ?_, fun hex => absurd hex hmem⟩, fun e he => ?_, fun _ => ⟨hrun.1, ?_⟩⟩
    · rw [hrun.1] at h
      cases h
    · rw [hrun.1] at he
      cases he
    · rw [hrun.2]
      exact mapGet_mapSet_self room.players pid _

/-- Witness for C8: joining as "alice" while "Alice" is connected is
rejected with no change to the room; after Alice disconnects the same join
succeeds. -/
theorem nickname_uniqueness_witness :
    (joinRoom aliceRoom "alice" 12 2 2).2 = some JoinError.nicknameTaken ∧
    (joinRoom aliceRoom "alice" 12 2 2).1 = aliceRoom ∧
    (joinRoom aliceGoneRoom "alice" 12 2 2).2 = none := by
  have h1 := nickname_uniqueness aliceRoom "alice" 12 2 2 (by decide)
  have h2 := nickname_uniqueness aliceGoneRoom "alice" 12 2 2 (by decide)
  have htaken : (joinRoom aliceRoom "alice" 12 2 2).2 = some JoinError.nicknameTaken :=
    h1.1.mpr ⟨alicePlayer, by decide, rfl, by decide⟩
  refine ⟨htaken, h1.2.1 JoinError.nicknameTaken htaken, (h2.2.2 ?_).1⟩
  rintro ⟨p, hp, hconn, -⟩
  simp [aliceGoneRoom, createRoom] at hp
  rw [hp] at hconn
  simp at hconn

/-- C9: evaluation at the failing input. In `gmOnlyState` socket 99 is bound
as room FFFF's GM but — having only created the room — has no
`socketToPlayer` entry, so its disconnect hits the handler's early return:
the GM binding stays set, nobody is notified and no deletion is scheduled,
contrary to the claim. The cleanup the claim describes is implemented in the
handler's GM branch, but that branch is reachable only in the corner case
where the GM's socket also joined as a player (`gmPlayerState`): there the
binding is cleared, the connected players' sockets are notified, deletion is
scheduled 300000 ms (5 minutes) out, firing it removes the room, and a
rebound GM (`gmReboundState`) survives the firing. -/
theorem gm_disconnect_dead_guard :
    (mapGet gmOnlyState.rooms "FFFF").map (·.gmSocketId) = some (some 99) ∧
    mapGet gmOnlyState.socketToPlayer 99 = none ∧
    handleDisconnect gmOnlyState 99 1000 = (gmOnlyState, []) ∧
    (mapGet (handleDisconnect gmPlayerState 99 1000).1.rooms "FFFF").map
      (·.gmSocketId) = some none ∧
    (handleDisconnect gmPlayerState 99 1000).2 = [11, 99] ∧
    ({ roomCode := "FFFF", fireAt := 1000 + 300000 } : PendingDeletion) ∈
      (handleDisconnect gmPlayerState 99 1000).1.pending ∧
    mapGet (fireDeletion (handleDisconnect gmPlayerState 99 1000).1 "FFFF").rooms
      "FFFF" = none ∧
    (mapGet gmReboundState.rooms "FFFF").map (·.gmSocketId) = some (some 77) ∧
    fireDeletion gmReboundState "FFFF" = gmReboundState := by
  exact ⟨rfl, rfl, by decide, by decide, by decide, by decide, by decide, rfl,
    by decide⟩

theorem applyVoteEntry_eq (pid : Nat) (subs : List Submission) (e : String × JsVal) :
    applyVoteEntry pid subs e =
      match validTarget subs.length e.1 with
      | some j => subs.modify (voteUpd pid e.2) j
      | none => subs := by
  unfold applyVoteEntry validTarget voteUpd
  cases parseIntJS e.1 with
  | none => rfl
  | some idx =>
    dsimp only
    by_cases h : 0 ≤ idx ∧ idx.toNat < subs.length
    · rw [if_pos h, if_pos h]
    · rw [if_neg h, if_neg h]

theorem applyVoteEntry_length (pid : Nat) (subs : List Submission) (e : String × JsVal) :
    (applyVoteEntry pid subs e).length = subs.length := by
  rw [applyVoteEntry_eq]
  cases validTarget subs.length e.1 with
  | none => rfl
  | some j => exact List.length_modify _ j subs

theorem foldl_applyVote_length (pid : Nat) (votes : List (String × JsVal))
    (subs : List Submission) :
    (votes.foldl (applyVoteEntry pid) subs).length = subs.length := by
  induction votes generalizing subs with
  | nil => rfl
  | cons e rest ih =>
    rw [List.foldl_cons, ih, applyVoteEntry_length]

theorem foldl_applyVote_invalid (pid : Nat) (votes : List (String × JsVal))
    (subs : List Submission)
    (h : ∀ e ∈ votes, validTarget subs.length e.1 = none) :
    votes.foldl (applyVoteEntry pid) subs = subs := by
  induction votes with
  | nil => rfl
  | cons e rest ih =>
    rw [List.foldl_cons, applyVoteEntry_eq, h e (List.mem_cons_self e rest)]
    exact ih (fun x hx => h x (List.mem_cons_of_mem e hx))

theorem mapGet_foldl_mapSet_ne (pid q : Nat) (l : List (String × JsVal))
    (m : List (Nat × Bool)) (hq : q ≠ pid) :
    mapGet (l.foldl (fun m e => mapSet m pid (truthy e.2)) m) q = mapGet m q := by
  induction l generalizing m with
  | nil => rfl
  | cons e rest ih =>
    rw [List.foldl_cons, ih, mapGet_mapSet_ne m pid q _ hq]

theorem mapGet_foldl_mapSet_self (pid : Nat) (l : List (String × JsVal))
    (m : List (Nat × Bool)) :
    mapGet (l.foldl (fun m e => mapSet m pid (truthy e.2)) m) pid =
      ((l.map (fun e => truthy e.2)).getLast?).or (mapGet m pid) := by
  induction l generalizing m with
  | nil => rfl
  | cons e rest ih =>
    rw [List.foldl_cons, ih, mapGet_mapSet_self m pid (truthy e.2)]
    cases hlast : (rest.map (fun e => truthy e.2)).getLast? with
    | none =>
      rw [List.map_cons, List.getLast?_cons, hlast]
      rfl
    | some y =>
      rw [List.map_cons, List.getLast?_cons, hlast]
      rfl

theorem keysUnique_foldl_mapSet (pid : Nat) (l : List (String × JsVal))
    (m : List (Nat × Bool)) (h : keysUnique m) :
    keysUnique (l.foldl (fun m e => mapSet m pid (truthy e.2)) m) := by
  induction l generalizing m with
  | nil => exact h
  | cons e rest ih =>
    rw [List.foldl_cons]
    exact ih _ (keysUnique_mapSet m pid (truthy e.2) h)

theorem foldl_applyVote_getD (pid : Nat) (votes : List (String × JsVal))
    (subs : List Submission) (i : Nat) (hi : i < subs.length) :
    (votes.foldl (applyVoteEntry pid) subs).getD i dfltSub =
      { subs.getD i dfltSub with
          votes := (votes.filter
                (fun e => validTarget subs.length e.1 = some i)).foldl
              (fun m e => mapSet m pid (truthy e.2))
              ((subs.getD i dfltSub).votes) } := by
  induction votes generalizing subs with
  | nil =>
    simp only [List.foldl_nil, List.filter_nil]
  | cons e rest ih =>
    rw [List.foldl_cons, applyVoteEntry_eq]
    cases hv : validTarget subs.length e.1 with
    | none =>
      dsimp only
      rw [ih subs hi, List.filter_cons]
      simp [hv]
    | some j =>
      dsimp only
      have hlen : (subs.modify (voteUpd pid e.2) j).length = subs.length :=
        List.length_modify _ j subs
      have hi' : i < (subs.modify (voteUpd pid e.2) j).length := by
        rw [hlen]
        exact hi
      rw [ih (subs.modify (voteUpd pid e.2) j) hi']
      simp only [hlen]
      by_cases hji : j = i
      · subst hji
        have hgd : (subs.modify (voteUpd pid e.2) j).getD j dfltSub =
            voteUpd pid e.2 (subs.getD j dfltSub) := by
          rw [List.getD_eq_getElem _ _ hi', List.getD_eq_getElem _ _ hi]
          exact List.getElem_modify_eq _ j subs hi'
        rw [hgd, List.filter_cons]
        simp only [hv, Option.some.injEq, decide_True, if_true]
        rw [List.foldl_cons]
        simp [voteUpd]
      · have hgd : (subs.modify (voteUpd pid e.2) j).getD i dfltSub =
            subs.getD i dfltSub := by
          rw [List.getD_eq_getElem _ _ hi', List.getD_eq_getElem _ _ hi]
          exact List.getElem_modify_ne _ subs hji hi'
        rw [hgd, List.filter_cons]
        simp [hv, hji]

/-- C10: for an accepted submit-votes action (room in voting, player bound,
not yet voted) no error is emitted; entries whose key does not address an
existing submission change nothing (with no error), each valid entry stores
the coerced boolean vote keyed by the voter's id (the last entry per index
winning), other voters' entries are untouched, vote keys stay duplicate-free
— so at most one vote per voter per submission — and the player is marked
hasVoted even when every entry was invalid or the payload was empty. -/
theorem submit_votes_handling (room : Room) (pid : Nat) (player : Player)
    (votes : List (String × JsVal))
    (hp : mapGet room.players pid = some player)
    (hphase : room.gameState = GameState.voting)
    (hnv : player.hasVoted = false) :
    (handleSubmitVotes room pid votes).2 = none ∧
    mapGet (handleSubmitVotes room pid votes).1.players pid =
      some { player with hasVoted := true } ∧
    (handleSubmitVotes room pid votes).1.submissions.length =
      room.submissions.length ∧
    ((∀ e ∈ votes, validTarget room.submissions.length e.1 = none) →
      (handleSubmitVotes room pid votes).1.submissions = room.submissions) ∧
    (∀ i, i < room.submissions.length →
      ((handleSubmitVotes room pid votes).1.submissions.getD i dfltSub).playerId =
        (room.submissions.getD i dfltSub).playerId ∧
      ((handleSubmitVotes room pid votes).1.submissions.getD i dfltSub).exemplar =
        (room.submissions.getD i dfltSub).exemplar ∧
      (∀ q, q ≠ pid →
        mapGet ((handleSubmitVotes room pid votes).1.submissions.getD i dfltSub).votes q =
          mapGet (room.submissions.getD i dfltSub).votes q) ∧
      mapGet ((handleSubmitVotes room pid votes).1.submissions.getD i dfltSub).votes pid =
        (effectiveVote votes room.submissions.length i).or
          (mapGet (room.submissions.getD i dfltSub).votes pid) ∧
      (keysUnique (room.submissions.getD i dfltSub).votes →
        keysUnique ((handleSubmitVotes room pid votes).1.submissions.getD i dfltSub).votes)) := by
  have hrun : handleSubmitVotes room pid votes =
      ({ room with
          submissions := votes.foldl (applyVoteEntry pid) room.submissions,
          players := mapSet room.players pid { player with hasVoted := true } },
        none) := by
    unfold handleSubmitVotes
    rw [hp]
    dsimp only
    rw [if_neg (not_not_intro hphase), if_neg (by simp [hnv])]
  refine ⟨?_, ?_, ?_, ?_, ?_⟩
  · rw [hrun]
  · rw [hrun]
    exact mapGet_mapSet_self room.players pid _
  · rw [hrun]
    exact foldl_applyVote_length pid votes room.submissions
  · intro h
    rw [hrun]
    exact foldl_applyVote_invalid pid votes room.submissions h
  · intro i hi
    rw [hrun]
    dsimp only
    rw [foldl_applyVote_getD pid votes room.submissions i hi]
    refine ⟨rfl, rfl, ?_, ?_, ?_⟩
    · intro q hq
      exact mapGet_foldl_mapSet_ne pid q _ _ hq
    · rw [mapGet_foldl_mapSet_self]
      rfl
    · intro hk
      exact keysUnique_foldl_mapSet pid _ _ hk

/-- Witness for C10: the mixed payload stores player 1's coerced votes on
submissions 0 and 1 only, skipping the bad keys silently, and an empty
payload still marks the player as having voted without touching any
submission. -/
theorem submit_votes_handling_witness :
    (handleSubmitVotes voteDemoRoom 1 demoVotes).2 = none ∧
    mapGet ((handleSubmitVotes voteDemoRoom 1 demoVotes).1.submissions.getD 0
      dfltSub).votes 1 = some true ∧
    mapGet ((handleSubmitVotes voteDemoRoom 1 demoVotes).1.submissions.getD 1
      dfltSub).votes 1 = some false ∧
    (handleSubmitVotes voteDemoRoom 1 []).1.submissions = voteDemoRoom.submissions ∧
    (mapGet (handleSubmitVotes voteDemoRoom 1 []).1.players 1).map (·.hasVoted) =
      some true := by
  have h := submit_votes_handling voteDemoRoom 1
    { playerId := 1, dbPlayerId := 1, socketId := some 11, nickname := "a",
      score := 0, hasSubmitted := true, hasVoted := false, isConnected := true }
    demoVotes (by decide) rfl rfl
  have hempty := submit_votes_handling voteDemoRoom 1
    { playerId := 1, dbPlayerId := 1, socketId := some 11, nickname := "a",
      score := 0, hasSubmitted := true, hasVoted := false, isConnected := true }
    [] (by decide) rfl rfl
  refine ⟨h.1, ?_, ?_, hempty.2.2.2.1 (by intro e he; cases he), ?_⟩
  · rw [(h.2.2.2.2 0 (by decide)).2.2.2.1]
    decide
  · rw [(h.2.2.2.2 1 (by decide)).2.2.2.1]
    decide
  · rw [hempty.2.1]
    rfl

end CategoryGame
